import Mathlib

/-!
Verification of `tokio-quiche/src/metrics/mod.rs`: the metrics facade of a
QUIC/HTTP-3 transport stack.  IP addresses are embedded as natural numbers
(32 bits for IPv4, 128 bits for IPv6); the `ipnetwork` crate's
`IpNetwork::new` / `network()` are embedded by their documented semantics
(prefix bound check, bitwise mask of the host bits).
-/

namespace TokioQuicheMetrics

/-- Rust `std::net::IpAddr`: an IPv4 address is its 32-bit big-endian value, an
IPv6 address its 128-bit value. -/
inductive IpAddr where
  | v4 (addr : Nat)
  | v6 (addr : Nat)
deriving DecidableEq, Repr

/-- An `IpAddr` is valid when its value fits the address width. -/
def IpAddr.valid : IpAddr → Prop
  | .v4 a => a < 2 ^ 32
  | .v6 a => a < 2 ^ 128

instance (ip : IpAddr) : Decidable ip.valid := by
  cases ip <;> simp [IpAddr.valid] <;> infer_instance

/-- Rust `IpAddr::is_ipv4`. -/
def IpAddr.is_ipv4 : IpAddr → Bool
  | .v4 _ => true
  | .v6 _ => false

/-- The netmask of an IPv4 network with the given prefix length: the all-ones
word shifted left by the number of host bits, truncated to 32 bits
(`ipnetwork::Ipv4Network::mask`). -/
def ipv4NetworkMask (prefixLen : Nat) : Nat :=
  ((2 ^ 32 - 1) <<< (32 - prefixLen)) % 2 ^ 32

/-- The netmask of an IPv6 network with the given prefix length, truncated to
128 bits (`ipnetwork::Ipv6Network::mask`). -/
def ipv6NetworkMask (prefixLen : Nat) : Nat :=
  ((2 ^ 128 - 1) <<< (128 - prefixLen)) % 2 ^ 128

/-- Crate `ipnetwork`, type `IpNetwork`: an address together with a prefix length. -/
inductive IpNetwork where
  | v4 (addr : Nat) (prefixLen : Nat)
  | v6 (addr : Nat) (prefixLen : Nat)
deriving DecidableEq, Repr

/-- Crate `ipnetwork`, constructor `IpNetwork::new`: succeeds exactly when the prefix length is
within the address width (≤ 32 for IPv4, ≤ 128 for IPv6); `Ok` becomes
`some`, `Err` becomes `none`. -/
def IpNetwork.new (ip : IpAddr) (prefixLen : Nat) : Option IpNetwork :=
  match ip with
  | .v4 a => if prefixLen ≤ 32 then some (.v4 a prefixLen) else none
  | .v6 a => if prefixLen ≤ 128 then some (.v6 a prefixLen) else none

/-- Crate `ipnetwork`, method `IpNetwork::network()`: the address with the host bits cleared
by AND-ing with the netmask. -/
def IpNetwork.network : IpNetwork → IpAddr
  | .v4 a p => .v4 (a &&& ipv4NetworkMask p)
  | .v6 a p => .v6 (a &&& ipv6NetworkMask p)

/-- Constant `QUIC_INITIAL_METRICS_V4_PREFIX` in the source. -/
def QUIC_INITIAL_METRICS_V4_PREFIX_LEN : Nat := 20

/-- Constant `QUIC_INITIAL_METRICS_V6_PREFIX` in the source. -/
def QUIC_INITIAL_METRICS_V6_PREFIX_LEN : Nat := 32

/-- Function `quic_expensive_metrics_ip_reduce` (metrics/mod.rs:343-358). -/
def quic_expensive_metrics_ip_reduce (ip : IpAddr) : Option IpAddr :=
  let prefixLen := if ip.is_ipv4 then QUIC_INITIAL_METRICS_V4_PREFIX_LEN
    else QUIC_INITIAL_METRICS_V6_PREFIX_LEN
  match IpNetwork.new ip prefixLen with
  | some ip_net => some ip_net.network
  | none => none

/-! ### Bit-level arithmetic lemmas -/

theorem land_high_mask (w k a : Nat) (hk : k ≤ w) (ha : a < 2 ^ w) :
    a &&& (2 ^ w - 2 ^ k) = 2 ^ k * (a / 2 ^ k) := by
  have hmask : 2 ^ w - 2 ^ k = (2 ^ (w - k) - 1) <<< k := by
    rw [Nat.shiftLeft_eq, Nat.sub_mul, one_mul, ← Nat.pow_add,
      Nat.sub_add_cancel hk]
  have hrhs : 2 ^ k * (a / 2 ^ k) = (a >>> k) <<< k := by
    rw [Nat.shiftLeft_eq, Nat.shiftRight_eq_div_pow, Nat.mul_comm]
  rw [hmask, hrhs]
  apply Nat.eq_of_testBit_eq
  intro i
  rw [Nat.testBit_and, Nat.testBit_shiftLeft, Nat.testBit_shiftLeft,
    Nat.testBit_shiftRight, Nat.testBit_two_pow_sub_one]
  by_cases hik : k ≤ i
  · have hki : k + (i - k) = i := by omega
    rw [hki]
    by_cases hiw : i < w
    · have : i - k < w - k := by omega
      simp [hik, this]
    · have hbit : a.testBit i = false := by
        apply Nat.testBit_lt_two_pow
        calc a < 2 ^ w := ha
          _ ≤ 2 ^ i := Nat.pow_le_pow_right (by norm_num) (by omega)
      simp [hbit]
  · simp [hik]

theorem ipv4NetworkMask_20 : ipv4NetworkMask 20 = 2 ^ 32 - 2 ^ 12 := by decide

theorem ipv6NetworkMask_32 : ipv6NetworkMask 32 = 2 ^ 128 - 2 ^ 96 := by
  rfl

theorem reduce_v4_eq (a : Nat) (ha : a < 2 ^ 32) :
    quic_expensive_metrics_ip_reduce (.v4 a) =
      some (.v4 (2 ^ 12 * (a / 2 ^ 12))) := by
  simp [quic_expensive_metrics_ip_reduce, IpAddr.is_ipv4, IpNetwork.new,
    QUIC_INITIAL_METRICS_V4_PREFIX_LEN, IpNetwork.network]
  rw [ipv4NetworkMask_20, land_high_mask 32 12 a (by norm_num) ha]
  norm_num

theorem reduce_v6_eq (a : Nat) (ha : a < 2 ^ 128) :
    quic_expensive_metrics_ip_reduce (.v6 a) =
      some (.v6 (2 ^ 96 * (a / 2 ^ 96))) := by
  simp [quic_expensive_metrics_ip_reduce, IpAddr.is_ipv4, IpNetwork.new,
    QUIC_INITIAL_METRICS_V6_PREFIX_LEN, IpNetwork.network]
  rw [ipv6NetworkMask_32, land_high_mask 128 96 a (by norm_num) ha]
  norm_num

theorem reduce_v4_raw (a : Nat) :
    quic_expensive_metrics_ip_reduce (.v4 a) =
      some (.v4 (a &&& ipv4NetworkMask 20)) := rfl

theorem reduce_v6_raw (a : Nat) :
    quic_expensive_metrics_ip_reduce (.v6 a) =
      some (.v6 (a &&& ipv6NetworkMask 32)) := rfl

theorem land_land_self (a m : Nat) : (a &&& m) &&& m = a &&& m := by
  apply Nat.eq_of_testBit_eq
  intro i
  rw [Nat.testBit_and, Nat.testBit_and]
  cases a.testBit i <;> cases m.testBit i <;> rfl

theorem reduce_v4_eq_iff (a b : Nat) (ha : a < 2 ^ 32) (hb : b < 2 ^ 32) :
    quic_expensive_metrics_ip_reduce (.v4 a) =
        quic_expensive_metrics_ip_reduce (.v4 b) ↔
      a / 2 ^ 12 = b / 2 ^ 12 := by
  rw [reduce_v4_eq a ha, reduce_v4_eq b hb]
  simp only [Option.some.injEq, IpAddr.v4.injEq]
  omega

/-! ### Claim theorems about the cardinality reducer -/

/-- C1: for every valid IPv4 address the reducer returns the network of the
/20 prefix, which is the input with its lower 12 bits cleared
(`2 ^ 12 * (a / 2 ^ 12)`); for every valid IPv6 address it returns the
network of the /32 prefix, the input with its lower 96 bits cleared. -/
theorem C1_reduce_fixed_prefix_clears_low_bits :
    (∀ a : Nat, a < 2 ^ 32 →
      quic_expensive_metrics_ip_reduce (.v4 a) =
          (IpNetwork.new (.v4 a) 20).map IpNetwork.network ∧
      quic_expensive_metrics_ip_reduce (.v4 a) =
          some (.v4 (2 ^ 12 * (a / 2 ^ 12)))) ∧
    (∀ a : Nat, a < 2 ^ 128 →
      quic_expensive_metrics_ip_reduce (.v6 a) =
          (IpNetwork.new (.v6 a) 32).map IpNetwork.network ∧
      quic_expensive_metrics_ip_reduce (.v6 a) =
          some (.v6 (2 ^ 96 * (a / 2 ^ 96)))) := by
  constructor
  · intro a ha
    exact ⟨rfl, reduce_v4_eq a ha⟩
  · intro a ha
    exact ⟨rfl, reduce_v6_eq a ha⟩

/-- Closed witness for C1 at the addresses 10.0.0.1 and ::1. -/
theorem C1_witness :
    quic_expensive_metrics_ip_reduce (.v4 0x0A000001) =
        some (.v4 (2 ^ 12 * (0x0A000001 / 2 ^ 12))) ∧
    quic_expensive_metrics_ip_reduce (.v6 1) =
        some (.v6 (2 ^ 96 * (1 / 2 ^ 96))) :=
  ⟨(C1_reduce_fixed_prefix_clears_low_bits.1 0x0A000001 (by norm_num)).2,
   (C1_reduce_fixed_prefix_clears_low_bits.2 1 (by norm_num)).2⟩

/-- C3: reducing IPv4 203.0.113.77 yields its /20 network 203.0.112.0, and
reducing IPv6 2001:db8:abcd:ef01::1 yields its /32 network 2001:db8::. -/
theorem C3_concrete_scenarios :
    quic_expensive_metrics_ip_reduce (.v4 0xCB00714D) = some (.v4 0xCB007000) ∧
    quic_expensive_metrics_ip_reduce
        (.v6 0x20010db8abcdef010000000000000001) =
      some (.v6 0x20010db8000000000000000000000000) := by
  constructor <;> rfl

/-- C4: the reducer is total — for every address (IPv4 or IPv6) it returns
`some`; the `none` branch of the source is unreachable because the fixed
prefix lengths 20 and 32 are within the 32- and 128-bit address widths. -/
theorem C4_reduce_never_fails (ip : IpAddr) :
    (quic_expensive_metrics_ip_reduce ip).isSome = true := by
  cases ip <;> rfl

/-- C5: the reducer is a deterministic pure function — equal inputs give
bit-identical outputs (in this shallow embedding it is a function, with no
state and no effects, so determinism is extensionality in the input). -/
theorem C5_reduce_deterministic (ip₁ ip₂ : IpAddr) (h : ip₁ = ip₂) :
    quic_expensive_metrics_ip_reduce ip₁ = quic_expensive_metrics_ip_reduce ip₂ := by
  rw [h]

/-- Closed witness for C5 at the address 203.0.113.77. -/
theorem C5_witness :
    quic_expensive_metrics_ip_reduce (.v4 0xCB00714D) =
      quic_expensive_metrics_ip_reduce (.v4 0xCB00714D) :=
  C5_reduce_deterministic (.v4 0xCB00714D) (.v4 0xCB00714D) rfl

/-- C10: the reducer is idempotent — whenever it returns `some r`, feeding
`r` back in returns `some r` again (every reduced address is a fixed point). -/
theorem C10_reduce_idempotent (ip r : IpAddr)
    (h : quic_expensive_metrics_ip_reduce ip = some r) :
    quic_expensive_metrics_ip_reduce r = some r := by
  cases ip with
  | v4 a =>
    rw [reduce_v4_raw] at h
    obtain rfl : IpAddr.v4 (a &&& ipv4NetworkMask 20) = r := Option.some.inj h
    rw [reduce_v4_raw, land_land_self]
  | v6 a =>
    rw [reduce_v6_raw] at h
    obtain rfl : IpAddr.v6 (a &&& ipv6NetworkMask 32) = r := Option.some.inj h
    rw [reduce_v6_raw, land_land_self]

/-- Closed witness for C10 at the address 203.0.113.77 and its reduction. -/
theorem C10_witness :
    quic_expensive_metrics_ip_reduce (.v4 0xCB007000) = some (.v4 0xCB007000) :=
  C10_reduce_idempotent (.v4 0xCB00714D) (.v4 0xCB007000) (by rfl)

/-- C6: two valid IPv4 addresses reduce to the same value exactly when they
agree on their top 20 bits (equal quotients by `2 ^ 12`), and consequently
the set of valid IPv4 addresses sharing one output has exactly
`2 ^ 12 = 4096` elements. -/
theorem C6_v4_blocks_of_4096 :
    (∀ a b : Nat, a < 2 ^ 32 → b < 2 ^ 32 →
      (quic_expensive_metrics_ip_reduce (.v4 a) =
          quic_expensive_metrics_ip_reduce (.v4 b) ↔
        a / 2 ^ 12 = b / 2 ^ 12)) ∧
    (∀ a : Nat, a < 2 ^ 32 →
      ((Finset.range (2 ^ 32)).filter (fun b =>
          quic_expensive_metrics_ip_reduce (.v4 b) =
            quic_expensive_metrics_ip_reduce (.v4 a))).card = 2 ^ 12) := by
  refine ⟨reduce_v4_eq_iff, ?_⟩
  intro a ha
  have hfilter : (Finset.range (2 ^ 32)).filter (fun b =>
      quic_expensive_metrics_ip_reduce (.v4 b) =
        quic_expensive_metrics_ip_reduce (.v4 a)) =
      Finset.Ico (2 ^ 12 * (a / 2 ^ 12)) (2 ^ 12 * (a / 2 ^ 12) + 2 ^ 12) := by
    ext b
    simp only [Finset.mem_filter, Finset.mem_range, Finset.mem_Ico]
    constructor
    · rintro ⟨hb, heq⟩
      have hq := (reduce_v4_eq_iff b a hb ha).mp heq
      omega
    · intro hb
      have hblt : b < 2 ^ 32 := by omega
      refine ⟨hblt, (reduce_v4_eq_iff b a hblt ha).mpr ?_⟩
      omega
  rw [hfilter, Nat.card_Ico]
  omega

/-- Closed witness for C6: addresses 0 and 4095 lie in the same /20 block. -/
theorem C6_witness :
    quic_expensive_metrics_ip_reduce (.v4 0) =
      quic_expensive_metrics_ip_reduce (.v4 4095) :=
  (C6_v4_blocks_of_4096.1 0 4095 (by norm_num) (by norm_num)).mpr (by norm_num)

/-! ### Labeled-counter state (for the emission claims)

The labeled counters live in the `foundations` backend and the transport
call sites live elsewhere in the repository; only their declarations are in
the source slice, so the emission semantics below is modelled from the
spec. -/

/-- Modelled from the spec: the closed enumeration `labels::HandshakeError`
of handshake-failure reasons (declared in `labels.rs`, which is absent from
the source slice); the spec names only the `Timeout` variant explicitly,
the others stand for the remaining closed set. -/
inductive HandshakeError where
  | Timeout
  | TransportError
  | CryptoError
deriving DecidableEq, Repr

/-- Modelled from the spec: the closed enumeration
`labels::QuicInvalidInitialPacketError` of Initial-packet rejection reasons
(declared in `labels.rs`, absent from the source slice); the variants stand
for the closed set, whose names the spec does not enumerate. -/
inductive QuicInvalidInitialPacketError where
  | FailedToParse
  | TokenValidationFail
  | Unsupported
deriving DecidableEq, Repr

/-- Modelled from the spec: the backend's state for the metrics this
development reasons about — each counter is the family of per-label series
values. -/
structure MetricsState where
  connections_in_memory : Int
  accepted_initial_packet_count : Nat
  udp_drop_count : Nat
  failed_handshakes : HandshakeError → Nat
  expensive_accepted_initial_packet_count : IpAddr → Nat
  expensive_rejected_initial_packet_count :
    QuicInvalidInitialPacketError → IpAddr → Nat

/-- Modelled from the spec: an observation through
`DefaultMetrics::failed_handshakes(reason)` increments the series of the
given reason label by one and touches nothing else. -/
def incFailedHandshakes (s : MetricsState) (reason : HandshakeError) :
    MetricsState :=
  { s with failed_handshakes := fun r =>
      if r = reason then s.failed_handshakes r + 1 else s.failed_handshakes r }

/-- Modelled from the spec: the transport call site that emits the
expensive accepted-Initial observation (outside the source slice) first
passes the peer address through `quic_expensive_metrics_ip_reduce` and, on
success, increments the series labeled with the reduced address; on failure
it drops the observation. -/
def emitExpensiveAcceptedInitial (s : MetricsState) (peer_ip : IpAddr) :
    MetricsState :=
  match quic_expensive_metrics_ip_reduce peer_ip with
  | some reduced =>
    { s with expensive_accepted_initial_packet_count := fun l =>
        if l = reduced then s.expensive_accepted_initial_packet_count l + 1
        else s.expensive_accepted_initial_packet_count l }
  | none => s

/-- Modelled from the spec: the transport call site that emits the
expensive rejected-Initial observation, reducing the peer address the same
way and dropping the observation when reduction fails. -/
def emitExpensiveRejectedInitial (s : MetricsState)
    (reason : QuicInvalidInitialPacketError) (peer_ip : IpAddr) :
    MetricsState :=
  match quic_expensive_metrics_ip_reduce peer_ip with
  | some reduced =>
    { s with expensive_rejected_initial_packet_count := fun rs l =>
        if rs = reason then
          if l = reduced then
            s.expensive_rejected_initial_packet_count rs l + 1
          else s.expensive_rejected_initial_packet_count rs l
        else s.expensive_rejected_initial_packet_count rs l }
  | none => s

/-- A concrete all-zero metrics state, used by the closed witnesses. -/
def zeroState : MetricsState :=
  { connections_in_memory := 0
    accepted_initial_packet_count := 0
    udp_drop_count := 0
    failed_handshakes := fun _ => 0
    expensive_accepted_initial_packet_count := fun _ => 0
    expensive_rejected_initial_packet_count := fun _ _ => 0 }

/-- C2: any expensive-metric series whose value changes when an observation
is emitted is labeled with the reducer's output for the peer address —
never the unreduced address unless it is its own reduction — and when the
reducer returns `none` the whole observation is dropped (the state is
unchanged). -/
theorem C2_expensive_labels_are_reduced (s : MetricsState) (ip : IpAddr) :
    (quic_expensive_metrics_ip_reduce ip = none →
      emitExpensiveAcceptedInitial s ip = s ∧
      ∀ rs, emitExpensiveRejectedInitial s rs ip = s) ∧
    (∀ l : IpAddr,
      (emitExpensiveAcceptedInitial s ip).expensive_accepted_initial_packet_count l ≠
          s.expensive_accepted_initial_packet_count l →
      quic_expensive_metrics_ip_reduce ip = some l) ∧
    (∀ rs : QuicInvalidInitialPacketError, ∀ l : IpAddr,
      (emitExpensiveRejectedInitial s rs ip).expensive_rejected_initial_packet_count rs l ≠
          s.expensive_rejected_initial_packet_count rs l →
      quic_expensive_metrics_ip_reduce ip = some l) := by
  cases hred : quic_expensive_metrics_ip_reduce ip with
  | none =>
    refine ⟨fun _ => ?_, fun l hl => ?_, fun rs l hl => ?_⟩
    · constructor <;>
        simp [emitExpensiveAcceptedInitial, emitExpensiveRejectedInitial, hred]
    · exfalso
      apply hl
      simp [emitExpensiveAcceptedInitial, hred]
    · exfalso
      apply hl
      simp [emitExpensiveRejectedInitial, hred]
  | some v =>
    refine ⟨fun hnone => absurd hnone (by simp), fun l hl => ?_, fun rs l hl => ?_⟩
    · by_cases hv : l = v
      · rw [hv]
      · exfalso
        apply hl
        simp [emitExpensiveAcceptedInitial, hred, hv]
    · by_cases hv : l = v
      · rw [hv]
      · exfalso
        apply hl
        simp [emitExpensiveRejectedInitial, hred, hv]

/-- Closed witness for C2: emitting for peer 203.0.113.77 from the zero
state changes exactly the series labeled with the reduced address. -/
theorem C2_witness :
    quic_expensive_metrics_ip_reduce (.v4 0xCB00714D) = some (.v4 0xCB007000) :=
  (C2_expensive_labels_are_reduced zeroState (.v4 0xCB00714D)).2.1
    (.v4 0xCB007000) (by decide)

/-- C7: a failed-handshake observation with reason `Timeout` increments the
Timeout-labeled series of `failed_handshakes` by one, leaves every other
reason-labeled series unchanged, and leaves every other metric unchanged. -/
theorem C7_failed_handshake_timeout_frame (s : MetricsState) :
    (incFailedHandshakes s .Timeout).failed_handshakes .Timeout =
        s.failed_handshakes .Timeout + 1 ∧
    (∀ r : HandshakeError, r ≠ .Timeout →
      (incFailedHandshakes s .Timeout).failed_handshakes r =
        s.failed_handshakes r) ∧
    (incFailedHandshakes s .Timeout).connections_in_memory =
        s.connections_in_memory ∧
    (incFailedHandshakes s .Timeout).accepted_initial_packet_count =
        s.accepted_initial_packet_count ∧
    (incFailedHandshakes s .Timeout).udp_drop_count = s.udp_drop_count ∧
    (incFailedHandshakes s .Timeout).expensive_accepted_initial_packet_count =
        s.expensive_accepted_initial_packet_count ∧
    (incFailedHandshakes s .Timeout).expensive_rejected_initial_packet_count =
        s.expensive_rejected_initial_packet_count := by
  refine ⟨by simp [incFailedHandshakes], fun r hr => ?_, rfl, rfl, rfl, rfl, rfl⟩
  simp [incFailedHandshakes, hr]

/-- Closed witness for C7: from the zero state, the CryptoError series is
untouched by a Timeout observation. -/
theorem C7_witness :
    (incFailedHandshakes zeroState .Timeout).failed_handshakes .CryptoError =
      zeroState.failed_handshakes .CryptoError :=
  (C7_failed_handshake_timeout_frame zeroState).2.1 .CryptoError (by decide)

/-! ### The measurement contract's return types -/

/-- The kind of value a method of the `Metrics` trait can return: one of
the four metric-handle types from `foundations::telemetry::metrics`, or a
success/failure code (which the contract must never use). -/
inductive MetricReturnKind where
  | counter
  | gauge
  | histogram
  | timeHistogram
  | statusCode
deriving DecidableEq, Repr

/-- Whether a return kind is a metric handle rather than a status code. -/
def MetricReturnKind.isHandle : MetricReturnKind → Bool
  | .statusCode => false
  | _ => true

/-- The methods of the `Metrics` trait (metrics/mod.rs:42-130) with their
return types, transcribed from the source. -/
def metricsTraitMethods : List (String × MetricReturnKind) :=
  [("connections_in_memory", .gauge),
   ("maximum_writable_streams", .histogram),
   ("handshake_time_seconds", .timeHistogram),
   ("write_errors", .counter),
   ("invalid_cid_packet_count", .counter),
   ("accepted_initial_packet_count", .counter),
   ("expensive_accepted_initial_packet_count", .counter),
   ("rejected_initial_packet_count", .counter),
   ("expensive_rejected_initial_packet_count", .counter),
   ("utilized_bandwidth", .gauge),
   ("max_bandwidth_mbps", .histogram),
   ("max_loss_pct", .histogram),
   ("udp_drop_count", .counter),
   ("failed_handshakes", .counter),
   ("local_h3_conn_close_error_count", .counter),
   ("local_quic_conn_close_error_count", .counter),
   ("peer_h3_conn_close_error_count", .counter),
   ("peer_quic_conn_close_error_count", .counter),
   ("tokio_runtime_task_schedule_delay_histogram", .timeHistogram),
   ("tokio_runtime_task_poll_duration_histogram", .timeHistogram),
   ("tokio_runtime_task_total_poll_time_micros", .counter)]

/-- C8: every method of the `Metrics` trait returns a metric handle
(Counter, Gauge, Histogram or TimeHistogram), never a success/failure
code — so steady-state emission has no error channel to the caller. -/
theorem C8_metrics_trait_returns_handles :
    metricsTraitMethods.all (fun m => m.2.isHandle) = true := by decide

/-! ### The backend registry (for the resolution-idempotence claim)

The registry behind the macro-expanded `quic` module lives in the
`foundations` backend, outside the source slice; it is modelled from the
spec as a lookup-or-create table whose concurrent registrations are
serialized by the backend (at most one creation per unique key). -/

/-- A metric series key: the metric name together with its label values. -/
def MetricKey : Type := String × List String

instance : DecidableEq MetricKey := by
  unfold MetricKey
  infer_instance

/-- Modelled from the spec: the registry state — a table from series keys
to handle identifiers, plus the next fresh identifier. -/
structure Registry where
  table : List (MetricKey × Nat)
  nextId : Nat

/-- Lookup of the first handle registered under a key. -/
def lookupKey : List (MetricKey × Nat) → MetricKey → Option Nat
  | [], _ => none
  | e :: es, k => if e.1 = k then some e.2 else lookupKey es k

/-- Modelled from the spec: resolving a metric by (name, label combination)
returns the registered handle when the key is present, and otherwise
registers a fresh handle for it (lookup-or-create). -/
def Registry.resolve (reg : Registry) (key : MetricKey) : Registry × Nat :=
  match lookupKey reg.table key with
  | some h => (reg, h)
  | none =>
    ({ table := (key, reg.nextId) :: reg.table, nextId := reg.nextId + 1 },
      reg.nextId)

/-- Number of series registered under a key. -/
def Registry.entryCount (reg : Registry) (key : MetricKey) : Nat :=
  (reg.table.filter (fun e => decide (e.1 = key))).length

/-- Sequential execution of a list of resolution requests: the serialized
interleaving of the concurrent callers. -/
def Registry.resolveMany (reg : Registry) :
    List MetricKey → Registry × List Nat
  | [] => (reg, [])
  | k :: ks =>
    let step := reg.resolve k
    let rest := step.1.resolveMany ks
    (rest.1, step.2 :: rest.2)

/-- Modelled from the spec: a caller increments the counter behind its
resolved handle once per observation; `applyIncrements` plays a list of
such increments against the per-handle counter store. -/
def applyIncrements (c : Nat → Nat) : List Nat → (Nat → Nat)
  | [] => c
  | h :: hs =>
    applyIncrements (fun x => if x = h then c x + 1 else c x) hs

theorem lookupKey_none_iff (t : List (MetricKey × Nat)) (k : MetricKey) :
    lookupKey t k = none ↔
      (t.filter (fun e => decide (e.1 = k))).length = 0 := by
  induction t with
  | nil => simp [lookupKey]
  | cons e es ih =>
    by_cases he : e.1 = k
    · simp [lookupKey, he, List.filter]
    · simpa [lookupKey, he, List.filter] using ih

theorem resolve_of_lookup (reg : Registry) (key : MetricKey) (h : Nat)
    (hl : lookupKey reg.table key = some h) :
    reg.resolve key = (reg, h) := by
  simp [Registry.resolve, hl]

theorem lookup_after_resolve (reg : Registry) (key : MetricKey) :
    lookupKey (reg.resolve key).1.table key = some (reg.resolve key).2 := by
  cases hl : lookupKey reg.table key with
  | some h => simp [Registry.resolve, hl]
  | none => simp [Registry.resolve, hl, lookupKey]

theorem resolve_resolve (reg : Registry) (key : MetricKey) :
    (reg.resolve key).1.resolve key = ((reg.resolve key).1, (reg.resolve key).2) :=
  resolve_of_lookup _ _ _ (lookup_after_resolve reg key)

theorem entryCount_resolve (reg : Registry) (key : MetricKey)
    (hwf : reg.entryCount key ≤ 1) :
    (reg.resolve key).1.entryCount key = 1 := by
  cases hl : lookupKey reg.table key with
  | some h =>
    have hne : ¬ (reg.entryCount key = 0) := by
      intro h0
      rw [(lookupKey_none_iff reg.table key).mpr h0] at hl
      exact Option.noConfusion hl
    simp only [Registry.resolve, hl]
    unfold Registry.entryCount at hne hwf ⊢
    omega
  | none =>
    have h0 : reg.entryCount key = 0 := (lookupKey_none_iff reg.table key).mp hl
    simp only [Registry.resolve, hl]
    unfold Registry.entryCount at h0 ⊢
    simp [List.filter, h0]

theorem resolveMany_replicate_all_eq (n : Nat) (reg : Registry)
    (key : MetricKey) (hwf : reg.entryCount key ≤ 1) :
    ∀ h' ∈ (reg.resolveMany (List.replicate n key)).2, h' = (reg.resolve key).2 := by
  induction n generalizing reg with
  | zero => simp [Registry.resolveMany]
  | succ m ih =>
    intro h' hmem
    rw [List.replicate_succ] at hmem
    simp only [Registry.resolveMany, List.mem_cons] at hmem
    rcases hmem with hmem | hmem
    · exact hmem
    · have hwfnext : (reg.resolve key).1.entryCount key ≤ 1 := by
        rw [entryCount_resolve reg key hwf]
      have := ih (reg.resolve key).1 hwfnext h' hmem
      rw [this, resolve_resolve]

theorem applyIncrements_all_eq (hs : List Nat) (h₀ : Nat) :
    ∀ c : Nat → Nat, (∀ x ∈ hs, x = h₀) →
      applyIncrements c hs h₀ = c h₀ + hs.length := by
  induction hs with
  | nil => intro c _; simp [applyIncrements]
  | cons hd tl ih =>
    intro c hall
    have hhd : hd = h₀ := hall hd (by simp)
    subst hhd
    simp only [applyIncrements]
    rw [ih _ (fun x hx => hall x (by simp [hx]))]
    simp
    omega

/-- C9: resolution is idempotent and race-free in the serialized model —
once a key has been resolved, resolving it again returns the same handle
and leaves the registry unchanged; exactly one series exists for the key;
N callers resolving the same key all receive that one handle; and playing
all N increments through the received handles adds exactly N to the single
shared counter. -/
theorem C9_resolution_idempotent (reg : Registry) (key : MetricKey) (n : Nat)
    (hwf : reg.entryCount key ≤ 1) :
    (reg.resolve key).1.resolve key = ((reg.resolve key).1, (reg.resolve key).2) ∧
    (reg.resolve key).1.entryCount key = 1 ∧
    (∀ h' ∈ (reg.resolveMany (List.replicate n key)).2, h' = (reg.resolve key).2) ∧
    (∀ c : Nat → Nat,
      applyIncrements c (reg.resolveMany (List.replicate n key)).2
          (reg.resolve key).2 = c (reg.resolve key).2 + n) := by
  refine ⟨resolve_resolve reg key, entryCount_resolve reg key hwf,
    resolveMany_replicate_all_eq n reg key hwf, fun c => ?_⟩
  have hlen : (reg.resolveMany (List.replicate n key)).2.length = n := by
    clear hwf
    induction n generalizing reg with
    | zero => simp [Registry.resolveMany]
    | succ m ih =>
      rw [List.replicate_succ]
      simp [Registry.resolveMany, ih]
  rw [applyIncrements_all_eq _ _ c (resolveMany_replicate_all_eq n reg key hwf),
    hlen]

/-- Closed witness for C9: an empty registry resolving the
Timeout-labeled failed-handshakes series three times over. -/
theorem C9_witness :
    ((Registry.mk [] 0).resolve ("failed_handshakes", ["Timeout"])).1.entryCount
      ("failed_handshakes", ["Timeout"]) = 1 :=
  (C9_resolution_idempotent (Registry.mk [] 0) ("failed_handshakes", ["Timeout"])
    3 (by decide)).2.1

end TokioQuicheMetrics
